import Mathlib

/-!
Verification of the tuft mustache-template renderer (src/tuft.hpp) via a
shallow embedding.  Templates are `List Char`; iterator pairs into the
template become `(b, e : Nat)` index pairs; `std::search` becomes
`strSearch`; the recursive renderer becomes a fuel-indexed structural
recursion returning `Except` (the C++ throws `tuft::exception`).
-/

/-- Open-brace character (written by code point to keep it out of string
literals). -/
def lcub : Char := Char.ofNat 123

/-- Close-brace character. -/
def rcub : Char := Char.ofNat 125

/-- Single-quote character used in the renderer's error messages. -/
def squote : Char := Char.ofNat 39

/-- Double-quote character (escaped by `escape_html`). -/
def dquote : Char := Char.ofNat 34

/-- The default open delimiter `options_t::delim_open`, two open braces. -/
def default_open : List Char := [lcub, lcub]

/-- The default close delimiter `options_t::delim_close`, two close braces. -/
def default_close : List Char := [rcub, rcub]

/-- The local `triple_open` literal of `find_next_tag`: three open braces. -/
def triple_open : List Char := [lcub, lcub, lcub]

/-- The triple close literal chosen by `find_next_tag` for triple-mustache
tags: three close braces. -/
def triple_close : List Char := [rcub, rcub, rcub]

/-- `options_t`: configurable open/close delimiters (tuft.hpp lines 41-53). -/
structure options_t where
  delim_open : List Char
  delim_close : List Char
deriving DecidableEq

/-- The default-constructed `options_t` with delimiters two open braces /
two close braces. -/
def default_options : options_t := ⟨default_open, default_close⟩

/-- The hierarchical data value (`json_t = nlohmann::json`), an external
collaborator of the renderer.  Variants mirror `nlohmann::json::value_t` as
consumed by tuft: `null`, `boolean`, `number_integer` (covering the
integer/unsigned cases; `number_float` and `discarded` are omitted since
floating-point text is not shallowly embeddable and no claim touches them),
`string`, `array`, `object` (list of key/value pairs, unique keys). -/
inductive json_t where
  | null : json_t
  | boolean : Bool → json_t
  | number_integer : Int → json_t
  | string : List Char → json_t
  | array : List json_t → json_t
  | object : List (List Char × json_t) → json_t

/-- `element.is_array()` of nlohmann json. -/
def is_array : json_t → Bool
  | json_t.array _ => true
  | _ => false

/-- The element list looped over by `render_next` via `element[i]`;
empty for non-arrays (the non-array path never consults it). -/
def get_array : json_t → List json_t
  | json_t.array xs => xs
  | _ => []

/-- `current_elem.count(name)` of nlohmann json: number of entries with the
given key (0 or 1 for an object with unique keys, 0 on non-objects). -/
def json_count (j : json_t) (key : List Char) : Nat :=
  match j with
  | json_t.object kvs => if kvs.any (fun kv => decide (kv.1 = key)) then 1 else 0
  | _ => 0

/-- Modelled from the spec: `current_elem[name]` — the external nlohmann
const key lookup, which is not part of src/.  Per spec §4.5/§7 a missing
name (or a non-object frame) resolves to `Null`/absent; a present key
yields its value.  The renderer's variable path guards this with
`count(name) > 0`, the section path calls it unguarded. -/
def json_at (j : json_t) (key : List Char) : json_t :=
  match j with
  | json_t.object kvs =>
    match kvs.find? (fun kv => decide (kv.1 = key)) with
    | some kv => kv.2
    | none => json_t.null
  | _ => json_t.null

/-- `tag_type` (tuft.hpp lines 79-100).  `variable` and `section` are Lean
keywords, so those two constructors are abbreviated `var` and `sec`. -/
inductive tag_type where
  | var : tag_type
  | escaped : tag_type
  | sec : tag_type
  | inverted_section : tag_type
  | end_section : tag_type
  | comment : tag_type
  | invalid : tag_type
deriving DecidableEq

/-- The `tag_type_symbols` constant: the five symbol characters. -/
def tag_type_symbols : List Char := "&#^/!".data

/-- The `static_cast<tag_type>(c)` applied to a symbol character found by
`get_tag_type`; non-symbol characters (never passed) map to `invalid`. -/
def tag_type_of_char (c : Char) : tag_type :=
  if c = '&' then tag_type.escaped
  else if c = '#' then tag_type.sec
  else if c = '^' then tag_type.inverted_section
  else if c = '/' then tag_type.end_section
  else if c = '!' then tag_type.comment
  else tag_type.invalid

/-- The character range `[b, e)` of a template, i.e. the string an iterator
pair denotes. -/
def listSlice (t : List Char) (b e : Nat) : List Char :=
  (t.drop b).take (e - b)

/-- `std::search(b, e, needle.begin(), needle.end())` on a character range,
as a relative index: the least index at which `needle` occurs in `hay`, or
`hay.length` when there is no occurrence (the `e` iterator). -/
def strSearch (hay needle : List Char) : Nat :=
  if needle.isPrefixOf hay then 0
  else
    match hay with
    | [] => 0
    | _ :: tl => strSearch tl needle + 1

/-- The `delim_close` local of `find_next_tag` (tuft.hpp lines 153-164):
the configured close delimiter, except that under default delimiters it
becomes the triple close literal when the first open-delimiter occurrence
coincides with the first triple-open occurrence. -/
def effective_close (t : List Char) (b e : Nat) (opts : options_t) : List Char :=
  if opts.delim_open = default_open ∧ opts.delim_close = default_close then
    if b + strSearch (listSlice t b e) opts.delim_open
        = b + strSearch (listSlice t b e) triple_open then
      triple_close
    else opts.delim_close
  else opts.delim_close

/-- `find_next_tag` (tuft.hpp lines 147-177).  Returns
`(tag_begin, tag_end, found)`: `tag_begin` is the first occurrence of the
open delimiter in `[b, e)` (or `e`), `tag_end` starts at `e` and, when an
open delimiter was found, becomes the position just past the close
delimiter located after it (staying `e` when no close is found); the
returned flag is the source's `tag_begin != tag_end`. -/
def find_next_tag (t : List Char) (b e : Nat) (opts : options_t) :
    Nat × Nat × Bool :=
  let tag_begin := b + strSearch (listSlice t b e) opts.delim_open
  let delim_close := effective_close t b e opts
  let tag_end :=
    if tag_begin ≠ e then
      let after_tag_begin := tag_begin + opts.delim_open.length
      let te := after_tag_begin + strSearch (listSlice t after_tag_begin e) delim_close
      if te ≠ e then te + delim_close.length else te
    else e
  (tag_begin, tag_end, tag_begin != tag_end)

/-- `inside_tag` (tuft.hpp lines 187-193): the index pair bounding the tag
interior between the delimiters. -/
def inside_tag (b e : Nat) (opts : options_t) : Nat × Nat :=
  (b + opts.delim_open.length, e - opts.delim_close.length)

/-- `get_tag_name` (tuft.hpp lines 205-222): the tag interior with all
symbol characters and braces erased. -/
def get_tag_name (t : List Char) (b e : Nat) (opts : options_t) : List Char :=
  if b = e then []
  else
    let inside := inside_tag b e opts
    (listSlice t inside.1 inside.2).filter
      (fun c => !(tag_type_symbols.contains c || c == lcub || c == rcub))

/-- `get_tag_type` (tuft.hpp lines 234-252): the first symbol character in
the tag interior determines the type; none (or an empty interior) means a
plain variable. -/
def get_tag_type (t : List Char) (b e : Nat) (opts : options_t) : tag_type :=
  let inside := inside_tag b e opts
  match (listSlice t inside.1 inside.2).find? (fun c => tag_type_symbols.contains c) with
  | some c => tag_type_of_char c
  | none => tag_type.var

/-- `should_escape` (tuft.hpp lines 262-285): escape unless the tag type is
`escaped`, or the whole tag text is at least 6 characters long, starts with
the triple-open literal and ends with the triple-close literal. -/
def should_escape (t : List Char) (b e : Nat) (opts : options_t) : Bool :=
  if get_tag_type t b e opts = tag_type.escaped then false
  else if 6 ≤ e - b then
    if listSlice t b (b + 3) = triple_open ∧ listSlice t (e - 3) e = triple_close
    then false else true
  else true

/-- One case of the `switch` in `escape_html` (tuft.hpp lines 297-309). -/
def escape_char (c : Char) : List Char :=
  if c = '&' then "&amp;".data
  else if c = '<' then "&lt;".data
  else if c = '>' then "&gt;".data
  else if c = dquote then "&quot;".data
  else if c = squote then "&#39;".data
  else if c = '/' then "&#x2F;".data
  else [c]

/-- `escape_html` (tuft.hpp lines 292-312). -/
def escape_html : List Char → List Char
  | [] => []
  | c :: rest => escape_char c ++ escape_html rest

/-- `std::to_string` on the integral value of a number element. -/
def intToChars (i : Int) : List Char :=
  if i < 0 then '-' :: Nat.toDigits 10 i.natAbs else Nat.toDigits 10 i.natAbs

mutual
/-- Modelled from the spec: the external collaborator's canonical dump
(`elem.dump()` of nlohmann json, not part of src/); spec §1 treats it as a
black-box stringify.  A plain JSON serialization; no claim depends on its
exact text. -/
def dump : json_t → List Char
  | json_t.null => "null".data
  | json_t.boolean b => if b then "true".data else "false".data
  | json_t.number_integer i => intToChars i
  | json_t.string s => dquote :: s ++ [dquote]
  | json_t.array xs => '[' :: dump_list xs ++ [']']
  | json_t.object kvs => lcub :: dump_obj kvs ++ [rcub]

/-- Serialization of an array's elements, comma separated. -/
def dump_list : List json_t → List Char
  | [] => []
  | [j] => dump j
  | j :: rest => dump j ++ ',' :: dump_list rest

/-- Serialization of an object's members, comma separated. -/
def dump_obj : List (List Char × json_t) → List Char
  | [] => []
  | [kv] => dquote :: kv.1 ++ dquote :: ':' :: dump kv.2
  | kv :: rest => (dquote :: kv.1 ++ dquote :: ':' :: dump kv.2) ++ ',' :: dump_obj rest
end

/-- The value-stringification `switch` of `render_next` (tuft.hpp lines
389-426): objects/arrays dump, null prints `null`, numbers print decimals,
booleans print `true`/`false`, strings pass through. -/
def stringify : json_t → List Char
  | json_t.object kvs => dump (json_t.object kvs)
  | json_t.array xs => dump (json_t.array xs)
  | json_t.null => "null".data
  | json_t.number_integer i => intToChars i
  | json_t.boolean b => if b then "true".data else "false".data
  | json_t.string s => s

/-- The closing-tag text a section searches for:
`opts.delim_open + "/" + name + opts.delim_close` (tuft.hpp line 441). -/
def close_tag_text (name : List Char) (opts : options_t) : List Char :=
  opts.delim_open ++ '/' :: name ++ opts.delim_close

/-- The `tuft::exception` message for an unterminated section (tuft.hpp
line 445); the closing-tag text appears between single quotes. -/
def unterminated_msg (close_tag : List Char) : List Char :=
  "tuft::render - Could not find closing tag ".data ++ squote :: close_tag ++ [squote]

/-- The `tuft::exception` message for an unknown tag (tuft.hpp line 462);
the C++ string concatenation ends after the tag text (no closing quote). -/
def unknown_tag_msg (tag_text : List Char) : List Char :=
  "tuft::render - Unknown tag: ".data ++ squote :: tag_text

/-- Error used only when the fuel of the embedded recursion runs out; the
C++ uses the native call stack with no bound.  `render` supplies enough
fuel for every computation exercised here. -/
def fuel_msg : List Char := "model: out of fuel".data

/-- The index one close-delimiter length past a tag's end: the upper bound
of the range appended by the comment case (tuft.hpp line 456,
`next(tag_end, opts.delim_close.size())`), where `tag_end` already lies
past the close delimiter. -/
def comment_append_end (tag_end : Nat) (opts : options_t) : Nat :=
  tag_end + opts.delim_close.length

mutual
/-- The `while (find_next_tag ...)` loop of `render_next` (tuft.hpp lines
364-471) for one pass over the range `[b, e)` with frame `cur`:
emit the literal before the tag, dispatch the tag per the `switch`
(variable/escaped: count-guarded lookup with silent misses, stringify,
escape decision; section/inverted: locate the literal closing-tag text —
fatal error when absent — and recurse through `render_section`; comment:
verbatim append up to `comment_append_end`; anything else: fatal error),
then continue after the tag; when no tag is found, emit the remaining
text.  `fuel` is a structural-recursion bound (a modelling artifact; the
C++ recurses on the native stack). -/
def render_pass (fuel : Nat) (t : List Char) (b e : Nat) (cur : json_t)
    (opts : options_t) : Except (List Char) (List Char) :=
  match fuel with
  | 0 => Except.error fuel_msg
  | fuel + 1 =>
    match find_next_tag t b e opts with
    | (_, _, false) => Except.ok (listSlice t b e)
    | (tag_begin, tag_end, true) =>
      let lit := listSlice t b tag_begin
      let name := get_tag_name t tag_begin tag_end opts
      let ty := get_tag_type t tag_begin tag_end opts
      match ty with
      | tag_type.var | tag_type.escaped =>
        let found := decide (0 < json_count cur name)
        let should_exist := decide (name ≠ []) && decide (name ≠ ['.'])
        if !found && should_exist then
          match render_pass fuel t tag_end e cur opts with
          | Except.error m => Except.error m
          | Except.ok rest => Except.ok (lit ++ rest)
        else
          let elem := if found then json_at cur name else cur
          let val := stringify elem
          let piece :=
            if should_escape t tag_begin tag_end opts then escape_html val else val
          match render_pass fuel t tag_end e cur opts with
          | Except.error m => Except.error m
          | Except.ok rest => Except.ok (lit ++ piece ++ rest)
      | tag_type.inverted_section | tag_type.sec =>
        let is_inverted := decide (ty = tag_type.inverted_section)
        let close_tag := close_tag_text name opts
        let close_tag_begin := tag_end + strSearch (listSlice t tag_end e) close_tag
        if close_tag_begin = e then Except.error (unterminated_msg close_tag)
        else
          match render_section fuel t tag_end close_tag_begin (json_at cur name)
              opts is_inverted with
          | Except.error m => Except.error m
          | Except.ok inner =>
            match render_pass fuel t (close_tag_begin + close_tag.length) e cur opts with
            | Except.error m => Except.error m
            | Except.ok rest => Except.ok (lit ++ inner ++ rest)
      | tag_type.comment =>
        match render_pass fuel t tag_end e cur opts with
        | Except.error m => Except.error m
        | Except.ok rest =>
          Except.ok (lit ++ listSlice t tag_begin (comment_append_end tag_end opts) ++ rest)
      | _ =>
        Except.error (unknown_tag_msg (listSlice t tag_begin tag_end))
termination_by structural fuel

/-- `render_section` (tuft.hpp lines 314-343): truthiness of the current
element (arrays/objects true, booleans their value, everything else false),
inverted for inverted sections; a truthy value renders the interior. -/
def render_section (fuel : Nat) (t : List Char) (b e : Nat) (cur : json_t)
    (opts : options_t) (is_inverted : Bool) : Except (List Char) (List Char) :=
  match fuel with
  | 0 => Except.error fuel_msg
  | fuel + 1 =>
    let render_interior :=
      match cur with
      | json_t.array _ => true
      | json_t.object _ => true
      | json_t.boolean v => v
      | _ => false
    let render_interior := if is_inverted then !render_interior else render_interior
    if render_interior then render_next fuel t b e cur opts else Except.ok []
termination_by structural fuel

/-- `render_next` (tuft.hpp lines 345-473): one pass per array element
(each element becoming the frame), a single pass otherwise. -/
def render_next (fuel : Nat) (t : List Char) (b e : Nat) (elem : json_t)
    (opts : options_t) : Except (List Char) (List Char) :=
  match fuel with
  | 0 => Except.error fuel_msg
  | fuel + 1 =>
    if is_array elem then render_loop fuel t b e (get_array elem) opts
    else render_pass fuel t b e elem opts
termination_by structural fuel

/-- The `for (i < loop_count)` iteration of `render_next` over the array's
elements, appending the passes' output in array order; zero elements render
nothing, and an error in any pass aborts the whole render. -/
def render_loop (fuel : Nat) (t : List Char) (b e : Nat) (xs : List json_t)
    (opts : options_t) : Except (List Char) (List Char) :=
  match xs with
  | [] => Except.ok []
  | x :: rest =>
    match fuel with
    | 0 => Except.error fuel_msg
    | fuel + 1 =>
      match render_pass fuel t b e x opts with
      | Except.error m => Except.error m
      | Except.ok s =>
        match render_loop fuel t b e rest opts with
        | Except.error m => Except.error m
        | Except.ok r => Except.ok (s ++ r)
termination_by structural fuel
end

/-- `tuft::render` (tuft.hpp lines 119-130): empty templates render empty;
otherwise the whole template is rendered against the root value.  The fuel
`2 * t.length + 2` is a modelling artifact covering every computation
exercised here. -/
def render (t : List Char) (hash : json_t) (opts : options_t) :
    Except (List Char) (List Char) :=
  if t.length = 0 then Except.ok []
  else render_next (2 * t.length + 2) t 0 t.length hash opts

deriving instance DecidableEq for Except

/-- The truthiness rule for section frames as the specification states it:
Array or Object values are truthy regardless of emptiness, Booleans are
their own value, and Null/Number/String are falsy. -/
def section_truthiness : json_t → Bool
  | json_t.array _ => true
  | json_t.object _ => true
  | json_t.boolean v => v
  | _ => false

lemma listSlice_full (t : List Char) : listSlice t 0 t.length = t := by
  simp [listSlice]

lemma listSlice_empty (t : List Char) (a : Nat) : listSlice t a a = [] := by
  simp [listSlice]

lemma listSlice_length (t : List Char) (b e : Nat)
    (het : e ≤ t.length) : (listSlice t b e).length = e - b := by
  simp [listSlice]
  omega

lemma strSearch_le_length (hay pat : List Char) : strSearch hay pat ≤ hay.length := by
  induction hay with
  | nil => rw [strSearch]; split <;> simp
  | cons c tl ih =>
    rw [strSearch]
    split
    · simp
    · simp only [List.length_cons]; omega

lemma strSearch_prefix_of_lt (hay pat : List Char)
    (h : strSearch hay pat < hay.length) :
    pat.isPrefixOf (hay.drop (strSearch hay pat)) = true := by
  induction hay with
  | nil => rw [strSearch] at h; split at h <;> simp at h
  | cons c tl ih =>
    rw [strSearch] at h ⊢
    by_cases hp : pat.isPrefixOf (c :: tl) = true
    · rw [if_pos hp]
      simpa using hp
    · rw [if_neg hp] at h ⊢
      simp only [List.length_cons] at h
      have := ih (by omega)
      simpa using this

lemma strSearch_min (hay pat : List Char) (j : Nat)
    (h : j < strSearch hay pat) :
    pat.isPrefixOf (hay.drop j) = false := by
  induction hay generalizing j with
  | nil => rw [strSearch] at h; split at h <;> omega
  | cons c tl ih =>
    rw [strSearch] at h
    by_cases hp : pat.isPrefixOf (c :: tl) = true
    · rw [if_pos hp] at h; omega
    · rw [if_neg hp] at h
      match j with
      | 0 =>
        simp only [Bool.not_eq_true] at hp
        simpa using hp
      | j + 1 =>
        have := ih j (by omega)
        simpa using this

lemma strSearch_le_of_prefix (hay pat : List Char) (j : Nat)
    (h : pat.isPrefixOf (hay.drop j) = true) :
    strSearch hay pat ≤ j := by
  by_contra hc
  rw [strSearch_min hay pat j (by omega)] at h
  exact Bool.noConfusion h

lemma isPrefixOf_trans {a b c : List Char} (h1 : a.isPrefixOf b = true)
    (h2 : b.isPrefixOf c = true) : a.isPrefixOf c = true := by
  rw [List.isPrefixOf_iff_prefix] at h1 h2 ⊢
  exact h1.trans h2

lemma json_at_of_count_zero (j : json_t) (key : List Char)
    (h : json_count j key = 0) : json_at j key = json_t.null := by
  cases j with
  | object kvs =>
    have hany : kvs.any (fun kv => decide (kv.1 = key)) = false := by
      by_contra hc
      simp only [Bool.not_eq_false] at hc
      simp [json_count, hc] at h
    have hfind : kvs.find? (fun kv => decide (kv.1 = key)) = none := by
      rw [List.find?_eq_none]
      intro x hx
      rw [List.any_eq_false] at hany
      exact hany x hx
    simp [json_at, hfind]
  | null => rfl
  | boolean v => rfl
  | number_integer i => rfl
  | string s => rfl
  | array xs => rfl

lemma find_next_tag_no_open (t : List Char) (opts : options_t)
    (h : strSearch t opts.delim_open = t.length) :
    find_next_tag t 0 t.length opts = (t.length, t.length, false) := by
  simp [find_next_tag, listSlice_full, h]

lemma render_pass_not_found (fuel : Nat) (t : List Char) (b e : Nat) (cur : json_t)
    (opts : options_t) (x y : Nat)
    (hf : find_next_tag t b e opts = (x, y, false)) :
    render_pass (fuel + 1) t b e cur opts = Except.ok (listSlice t b e) := by
  simp only [render_pass, hf]

lemma render_next_not_array (fuel : Nat) (t : List Char) (b e : Nat) (j : json_t)
    (opts : options_t) (h : is_array j = false) :
    render_next (fuel + 1) t b e j opts = render_pass fuel t b e j opts := by
  simp only [render_next, h, Bool.false_eq_true, if_false]

lemma render_next_array (fuel : Nat) (t : List Char) (b e : Nat) (xs : List json_t)
    (opts : options_t) :
    render_next (fuel + 1) t b e (json_t.array xs) opts = render_loop fuel t b e xs opts := by
  simp only [render_next, is_array, get_array, if_true]

lemma render_section_eq (fuel : Nat) (t : List Char) (b e : Nat) (cur : json_t)
    (opts : options_t) (inv : Bool) :
    render_section (fuel + 1) t b e cur opts inv =
      if (if inv then !(section_truthiness cur) else section_truthiness cur)
      then render_next fuel t b e cur opts else Except.ok [] := by
  cases cur <;> cases inv <;> simp [render_section, section_truthiness]

lemma render_pass_sec_step (fuel : Nat) (t : List Char) (b e : Nat) (cur : json_t)
    (opts : options_t) (tb te : Nat)
    (hf : find_next_tag t b e opts = (tb, te, true))
    (hty : get_tag_type t tb te opts = tag_type.sec) :
    render_pass (fuel + 1) t b e cur opts =
      (let name := get_tag_name t tb te opts
       let close_tag := close_tag_text name opts
       let close_tag_begin := te + strSearch (listSlice t te e) close_tag
       if close_tag_begin = e then Except.error (unterminated_msg close_tag)
       else
         match render_section fuel t te close_tag_begin (json_at cur name) opts false with
         | Except.error m => Except.error m
         | Except.ok inner =>
           match render_pass fuel t (close_tag_begin + close_tag.length) e cur opts with
           | Except.error m => Except.error m
           | Except.ok rest => Except.ok (listSlice t b tb ++ inner ++ rest)) := by
  simp only [render_pass, hf, hty]
  rfl

lemma render_pass_inv_step (fuel : Nat) (t : List Char) (b e : Nat) (cur : json_t)
    (opts : options_t) (tb te : Nat)
    (hf : find_next_tag t b e opts = (tb, te, true))
    (hty : get_tag_type t tb te opts = tag_type.inverted_section) :
    render_pass (fuel + 1) t b e cur opts =
      (let name := get_tag_name t tb te opts
       let close_tag := close_tag_text name opts
       let close_tag_begin := te + strSearch (listSlice t te e) close_tag
       if close_tag_begin = e then Except.error (unterminated_msg close_tag)
       else
         match render_section fuel t te close_tag_begin (json_at cur name) opts true with
         | Except.error m => Except.error m
         | Except.ok inner =>
           match render_pass fuel t (close_tag_begin + close_tag.length) e cur opts with
           | Except.error m => Except.error m
           | Except.ok rest => Except.ok (listSlice t b tb ++ inner ++ rest)) := by
  simp only [render_pass, hf, hty]
  rfl

/-- Template `{{#missing}}A{{/missing}}` built from the delimiter
constants. -/
def tmpl_missing_sec : List Char :=
  default_open ++ '#' :: "missing".data ++ default_close
    ++ 'A' :: (default_open ++ '/' :: "missing".data ++ default_close)

/-- Template `{{^missing}}A{{/missing}}`. -/
def tmpl_missing_inv : List Char :=
  default_open ++ '^' :: "missing".data ++ default_close
    ++ 'A' :: (default_open ++ '/' :: "missing".data ++ default_close)

/-- Template `{{!c}}AB`: a comment tag followed by two literal
characters. -/
def tmpl_comment_tail : List Char :=
  default_open ++ '!' :: 'c' :: default_close ++ "AB".data

/-- Template `{{!c}}`: a comment tag ending the template. -/
def tmpl_comment_end : List Char :=
  default_open ++ '!' :: 'c' :: default_close

/-- Search range `A{{x`: an open delimiter with no close delimiter after
it. -/
def range_unclosed : List Char := 'A' :: lcub :: lcub :: ['x']

/-- Template `{{#a}}text`: a section open tag with no closing tag. -/
def tmpl_unterminated : List Char :=
  default_open ++ '#' :: 'a' :: default_close ++ "text".data

/-- C1: a section or inverted-section tag whose name is absent from the
current context frame resolves to Null and gets standard truthiness: the
lookup of an absent name yields Null, and against any non-array frame
without the key, `{{#missing}}A{{/missing}}` renders to the empty string
while `{{^missing}}A{{/missing}}` renders to `A`, in neither case
raising an error. -/
theorem claim_C1_missing_name_resolves_null (j : json_t)
    (harr : is_array j = false)
    (hkey : json_count j "missing".data = 0) :
    json_at j "missing".data = json_t.null
    ∧ render tmpl_missing_sec j default_options = Except.ok []
    ∧ render tmpl_missing_inv j default_options = Except.ok ['A'] := by
  have hnull := json_at_of_count_zero j "missing".data hkey
  refine ⟨hnull, ?_, ?_⟩
  · have h25 : tmpl_missing_sec.length = 25 := rfl
    simp only [render, h25]
    norm_num
    have hr : render_next 52 tmpl_missing_sec 0 25 j default_options
        = render_pass 51 tmpl_missing_sec 0 25 j default_options :=
      render_next_not_array 51 _ _ _ _ _ harr
    rw [hr]
    have hstep := render_pass_sec_step 50 tmpl_missing_sec 0 25 j default_options 0 12
      (by decide) (by decide)
    rw [hstep]
    have hname : get_tag_name tmpl_missing_sec 0 12 default_options = "missing".data := by
      decide
    have hsearch : strSearch (listSlice tmpl_missing_sec 12 25)
        (close_tag_text "missing".data default_options) = 1 := by decide
    simp only [hname, hsearch, hnull]
    norm_num
    have hsec : render_section 50 tmpl_missing_sec 12 13 json_t.null default_options false
        = Except.ok [] := by
      have := render_section_eq 49 tmpl_missing_sec 12 13 json_t.null default_options false
      simpa [section_truthiness] using this
    rw [hsec]
    have hlen : (close_tag_text "missing".data default_options).length = 12 := by decide
    simp only [hlen]
    have hrest : render_pass 50 tmpl_missing_sec 25 25 j default_options
        = Except.ok (listSlice tmpl_missing_sec 25 25) :=
      render_pass_not_found 49 _ _ _ _ _ 25 25 (by decide)
    rw [hrest]
    simp [listSlice]
  · have h25 : tmpl_missing_inv.length = 25 := rfl
    simp only [render, h25]
    norm_num
    have hr : render_next 52 tmpl_missing_inv 0 25 j default_options
        = render_pass 51 tmpl_missing_inv 0 25 j default_options :=
      render_next_not_array 51 _ _ _ _ _ harr
    rw [hr]
    have hstep := render_pass_inv_step 50 tmpl_missing_inv 0 25 j default_options 0 12
      (by decide) (by decide)
    rw [hstep]
    have hname : get_tag_name tmpl_missing_inv 0 12 default_options = "missing".data := by
      decide
    have hsearch : strSearch (listSlice tmpl_missing_inv 12 25)
        (close_tag_text "missing".data default_options) = 1 := by decide
    simp only [hname, hsearch, hnull]
    norm_num
    have hsec : render_section 50 tmpl_missing_inv 12 13 json_t.null default_options true
        = Except.ok ['A'] := by
      rw [render_section_eq 49 tmpl_missing_inv 12 13 json_t.null default_options true]
      simp only [section_truthiness]
      norm_num
      have h1 : render_next 49 tmpl_missing_inv 12 13 json_t.null default_options
          = render_pass 48 tmpl_missing_inv 12 13 json_t.null default_options :=
        render_next_not_array 48 _ _ _ _ _ rfl
      rw [h1]
      have h2 : render_pass 48 tmpl_missing_inv 12 13 json_t.null default_options
          = Except.ok (listSlice tmpl_missing_inv 12 13) :=
        render_pass_not_found 47 _ _ _ _ _ 13 13 (by decide)
      rw [h2]
      decide
    rw [hsec]
    have hlen : (close_tag_text "missing".data default_options).length = 12 := by decide
    simp only [hlen]
    have hrest : render_pass 50 tmpl_missing_inv 25 25 j default_options
        = Except.ok (listSlice tmpl_missing_inv 25 25) :=
      render_pass_not_found 49 _ _ _ _ _ 25 25 (by decide)
    rw [hrest]
    simp [listSlice]

/-- C1 witness: the empty object frame has no `missing` key; the plain
section renders nothing and the inverted section renders `A`. -/
theorem claim_C1_witness :
    json_at (json_t.object []) "missing".data = json_t.null
    ∧ render tmpl_missing_sec (json_t.object []) default_options = Except.ok []
    ∧ render tmpl_missing_inv (json_t.object []) default_options = Except.ok ['A'] :=
  claim_C1_missing_name_resolves_null (json_t.object []) rfl rfl

/-- C2 (refuted, code bug): a template consisting of a comment tag and
trailing literal text does not render to itself — the comment dispatch
appends the comment text plus the next close-delimiter-length characters,
which are then appended again as trailing literal text, so `{{!c}}AB`
renders to `{{!c}}ABAB`. -/
theorem claim_C2_comment_tail_duplicated :
    render tmpl_comment_tail (json_t.object []) default_options
      = Except.ok (tmpl_comment_tail ++ "AB".data)
    ∧ render tmpl_comment_tail (json_t.object []) default_options
      ≠ Except.ok tmpl_comment_tail := by
  decide

/-- C3 (refuted, code bug): over the range `A{{x`, the close delimiter
occurs nowhere, yet `find_next_tag` reports found = true with
`tag_begin = 1 ≠ e` and `tag_end = e = 4`, instead of the claimed
"not found with both output iterators equal to the end". -/
theorem claim_C3_found_reported_without_close :
    strSearch range_unclosed default_close = range_unclosed.length
    ∧ find_next_tag range_unclosed 0 range_unclosed.length default_options
        = (1, 4, true) := by
  decide

lemma eq_array_of_is_array (j : json_t) (h : is_array j = true) :
    ∃ xs, j = json_t.array xs := by
  cases j <;> simp [is_array] at h ⊢

/-- C4: a section or inverted-section tag whose exact closing-tag text does
not occur later in the rendered range makes `render` fail with an error
message naming the missing closing tag, returning no output string at all
(the frame must not be the empty array, whose zero-iteration loop never
reaches the tag). -/
theorem claim_C4_unterminated_section_aborts (t : List Char) (hash : json_t)
    (opts : options_t) (tb te : Nat)
    (h0 : 0 < t.length)
    (hf : find_next_tag t 0 t.length opts = (tb, te, true))
    (hty : get_tag_type t tb te opts = tag_type.sec
          ∨ get_tag_type t tb te opts = tag_type.inverted_section)
    (hmiss : te + strSearch (listSlice t te t.length)
        (close_tag_text (get_tag_name t tb te opts) opts) = t.length)
    (hne : hash ≠ json_t.array []) :
    render t hash opts
      = Except.error (unterminated_msg (close_tag_text (get_tag_name t tb te opts) opts))
    ∧ List.IsInfix (close_tag_text (get_tag_name t tb te opts) opts)
        (unterminated_msg (close_tag_text (get_tag_name t tb te opts) opts))
    ∧ ∀ s, render t hash opts ≠ Except.ok s := by
  have herr : render t hash opts
      = Except.error (unterminated_msg (close_tag_text (get_tag_name t tb te opts) opts)) := by
    simp only [render]
    rw [if_neg (by omega)]
    have hpass : ∀ (g : Nat) (cur : json_t), render_pass (g + 1) t 0 t.length cur opts
        = Except.error (unterminated_msg (close_tag_text (get_tag_name t tb te opts) opts)) := by
      intro g cur
      rcases hty with hty | hty
      · rw [render_pass_sec_step g t 0 t.length cur opts tb te hf hty]
        simp only [hmiss, if_true, eq_self_iff_true]
      · rw [render_pass_inv_step g t 0 t.length cur opts tb te hf hty]
        simp only [hmiss, if_true, eq_self_iff_true]
    by_cases harr : is_array hash = true
    · obtain ⟨xs, rfl⟩ := eq_array_of_is_array hash harr
      have hxs : xs ≠ [] := by
        intro h
        exact hne (by rw [h])
      obtain ⟨x, rest, rfl⟩ : ∃ x rest, xs = x :: rest := by
        cases xs with
        | nil => exact absurd rfl hxs
        | cons x rest => exact ⟨x, rest, rfl⟩
      have hr : render_next (2 * t.length + 2) t 0 t.length (json_t.array (x :: rest)) opts
          = render_loop (2 * t.length + 1) t 0 t.length (x :: rest) opts :=
        render_next_array (2 * t.length + 1) _ _ _ _ _
      rw [hr]
      simp only [render_loop]
      obtain ⟨k, hk⟩ : ∃ k, t.length = k + 1 := ⟨t.length - 1, by omega⟩
      have h2 : 2 * t.length = (2 * k + 1) + 1 := by omega
      rw [h2]
      rw [hpass (2 * k + 1) x]
    · have hr : render_next (2 * t.length + 2) t 0 t.length hash opts
          = render_pass (2 * t.length + 1) t 0 t.length hash opts :=
        render_next_not_array (2 * t.length + 1) _ _ _ _ _ (by simpa using harr)
      rw [hr]
      exact hpass (2 * t.length) hash
  refine ⟨herr, ?_, ?_⟩
  · exact ⟨"tuft::render - Could not find closing tag ".data ++ [squote], [squote], by
      simp [unterminated_msg]⟩
  · intro s hs
    rw [herr] at hs
    exact Except.noConfusion hs

/-- C4 witness: `{{#a}}text` against the empty object fails with the
message naming `{{/a}}`. -/
theorem claim_C4_witness :
    render tmpl_unterminated (json_t.object []) default_options
      = Except.error (unterminated_msg (close_tag_text
          (get_tag_name tmpl_unterminated 0 6 default_options) default_options))
    ∧ List.IsInfix
        (close_tag_text (get_tag_name tmpl_unterminated 0 6 default_options) default_options)
        (unterminated_msg (close_tag_text
          (get_tag_name tmpl_unterminated 0 6 default_options) default_options))
    ∧ ∀ s, render tmpl_unterminated (json_t.object []) default_options ≠ Except.ok s :=
  claim_C4_unterminated_section_aborts tmpl_unterminated (json_t.object []) default_options 0 6
    (by decide) (by decide) (Or.inl (by decide)) (by decide)
    (fun h => json_t.noConfusion h)

/-- C5 counterexample: the claim fails for an array context — the tag-free
template `A` rendered against the array `[1, 2]` yields `AA` (one copy per
element), not the template unchanged. -/
theorem claim_C5_counterexample :
    render ['A'] (json_t.array [json_t.number_integer 1, json_t.number_integer 2])
        default_options = Except.ok ['A', 'A']
    ∧ render ['A'] (json_t.array [json_t.number_integer 1, json_t.number_integer 2])
        default_options ≠ Except.ok ['A'] := by
  decide

/-- C5 (amended): a template with no occurrence of the open delimiter
renders unchanged for every context value that is not an array; an array
context instead repeats the template once per element. -/
theorem claim_C5_no_tag_template_unchanged (t : List Char) (j : json_t)
    (opts : options_t) (harr : is_array j = false)
    (hno : strSearch t opts.delim_open = t.length) :
    render t j opts = Except.ok t := by
  by_cases h0 : t.length = 0
  · have ht : t = [] := List.eq_nil_of_length_eq_zero h0
    subst ht
    simp [render]
  · simp only [render]
    rw [if_neg h0]
    have hr : render_next (2 * t.length + 2) t 0 t.length j opts
        = render_pass (2 * t.length + 1) t 0 t.length j opts :=
      render_next_not_array (2 * t.length + 1) _ _ _ _ _ harr
    rw [hr]
    have hp : render_pass (2 * t.length + 1) t 0 t.length j opts
        = Except.ok (listSlice t 0 t.length) :=
      render_pass_not_found (2 * t.length) _ _ _ _ _ _ _ (find_next_tag_no_open t opts hno)
    rw [hp, listSlice_full]

/-- C5 witness: the tag-free template `AB` renders unchanged against a
null context. -/
theorem claim_C5_witness :
    render "AB".data json_t.null default_options = Except.ok "AB".data :=
  claim_C5_no_tag_template_unchanged "AB".data json_t.null default_options rfl (by decide)

/-- Context `{"x": "<i>"}`. -/
def ctx_angle : json_t := json_t.object [("x".data, json_t.string "<i>".data)]

/-- Template `{{x}}`. -/
def tmpl_var_x : List Char := default_open ++ 'x' :: default_close

/-- Template `{{{x}}}`. -/
def tmpl_triple_x : List Char := triple_open ++ 'x' :: triple_close

/-- Template `{{&x}}`. -/
def tmpl_amp_x : List Char := default_open ++ '&' :: 'x' :: default_close

/-- C6: `{{x}}` against `{"x": "<i>"}` renders `&lt;i&gt;` while `{{{x}}}`
and `{{&x}}` render `<i>`; `escape_html` rewrites each of the six reserved
characters to its entity and passes every other character through; and
`should_escape` holds exactly when the tag type is not `escaped` and the
tag text is not a triple-mustache form (at least 6 characters, starting
with the triple-open and ending with the triple-close literal). -/
theorem claim_C6_html_escaping :
    render tmpl_var_x ctx_angle default_options = Except.ok "&lt;i&gt;".data
    ∧ render tmpl_triple_x ctx_angle default_options = Except.ok "<i>".data
    ∧ render tmpl_amp_x ctx_angle default_options = Except.ok "<i>".data
    ∧ (∀ l, escape_html ('&' :: l) = "&amp;".data ++ escape_html l)
    ∧ (∀ l, escape_html ('<' :: l) = "&lt;".data ++ escape_html l)
    ∧ (∀ l, escape_html ('>' :: l) = "&gt;".data ++ escape_html l)
    ∧ (∀ l, escape_html (dquote :: l) = "&quot;".data ++ escape_html l)
    ∧ (∀ l, escape_html (squote :: l) = "&#39;".data ++ escape_html l)
    ∧ (∀ l, escape_html ('/' :: l) = "&#x2F;".data ++ escape_html l)
    ∧ (∀ c l, c ∉ ['&', '<', '>', dquote, squote, '/'] →
        escape_html (c :: l) = c :: escape_html l)
    ∧ (∀ t b e opts, should_escape t b e opts = true ↔
        (get_tag_type t b e opts ≠ tag_type.escaped
          ∧ ¬(6 ≤ e - b ∧ listSlice t b (b + 3) = triple_open
                ∧ listSlice t (e - 3) e = triple_close))) := by
  refine ⟨by decide, by decide, by decide, ?_, ?_, ?_, ?_, ?_, ?_, ?_, ?_⟩
  · intro l
    simp only [escape_html]
    rw [show escape_char '&' = "&amp;".data from by decide]
  · intro l
    simp only [escape_html]
    rw [show escape_char '<' = "&lt;".data from by decide]
  · intro l
    simp only [escape_html]
    rw [show escape_char '>' = "&gt;".data from by decide]
  · intro l
    simp only [escape_html]
    rw [show escape_char dquote = "&quot;".data from by decide]
  · intro l
    simp only [escape_html]
    rw [show escape_char squote = "&#39;".data from by decide]
  · intro l
    simp only [escape_html]
    rw [show escape_char '/' = "&#x2F;".data from by decide]
  · intro c l hc
    simp only [List.mem_cons, List.mem_singleton, not_or] at hc
    obtain ⟨h1, h2, h3, h4, h5, h6, _⟩ := hc
    simp only [escape_html, escape_char, if_neg h1, if_neg h2, if_neg h3, if_neg h4,
      if_neg h5, if_neg h6]
    rfl
  · intro t b e opts
    unfold should_escape
    split_ifs with h1 h2 h3 <;> simp_all

/-- C6 witness: an unreserved character passes through the escaper
unchanged. -/
theorem claim_C6_witness : escape_html ('a' :: []) = 'a' :: escape_html [] :=
  claim_C6_html_escaping.2.2.2.2.2.2.2.2.2.1 'a' [] (by decide)

/-- C7: `render_section` renders the interior according to the claimed
truthiness rule — Array/Object truthy regardless of emptiness, Booleans
their own value, Null/Number/String falsy — inverted sections render
exactly when that truthiness is false, and an (truthy) empty array frame
produces zero iterations of the interior rather than being skipped. -/
theorem claim_C7_section_truthiness :
    (∀ (fuel : Nat) (t : List Char) (b e : Nat) (opts : options_t) (j : json_t)
        (inv : Bool),
      render_section (fuel + 1) t b e j opts inv =
        if (if inv then !(section_truthiness j) else section_truthiness j)
        then render_next fuel t b e j opts else Except.ok [])
    ∧ (∀ xs, section_truthiness (json_t.array xs) = true)
    ∧ (∀ kvs, section_truthiness (json_t.object kvs) = true)
    ∧ (∀ v, section_truthiness (json_t.boolean v) = v)
    ∧ section_truthiness json_t.null = false
    ∧ (∀ i, section_truthiness (json_t.number_integer i) = false)
    ∧ (∀ s, section_truthiness (json_t.string s) = false)
    ∧ (∀ (fuel : Nat) (t : List Char) (b e : Nat) (opts : options_t),
        render_next (fuel + 1) t b e (json_t.array []) opts = Except.ok []) := by
  refine ⟨fun fuel t b e opts j inv => render_section_eq fuel t b e j opts inv,
    fun xs => rfl, fun kvs => rfl, fun v => rfl, rfl, fun i => rfl, fun s => rfl,
    fun fuel t b e opts => ?_⟩
  rw [render_next_array fuel t b e [] opts]
  simp [render_loop]

/-- Template `{{#items}}{{.}}{{/items}}`. -/
def tmpl_items : List Char :=
  default_open ++ '#' :: "items".data ++ default_close
    ++ (default_open ++ '.' :: default_close)
    ++ (default_open ++ '/' :: "items".data ++ default_close)

/-- Context `{"items": [1, 2, 3]}`. -/
def ctx_items : json_t :=
  json_t.object [("items".data,
    json_t.array [json_t.number_integer 1, json_t.number_integer 2,
      json_t.number_integer 3])]

/-- C8: an array frame renders the range once per element in array order
with that element as the frame, concatenating the passes' output in
sequence with no separators; concretely `{{#items}}{{.}}{{/items}}`
against `{"items": [1, 2, 3]}` renders `123`. -/
theorem claim_C8_array_frames_iterate :
    (∀ (fuel : Nat) (t : List Char) (b e : Nat) (opts : options_t)
        (f : json_t → List Char) (xs : List json_t),
      xs.length + 1 ≤ fuel →
      (∀ j ∈ xs, ∀ g, 1 ≤ g → render_pass g t b e j opts = Except.ok (f j)) →
      render_loop fuel t b e xs opts = Except.ok ((xs.map f).flatten))
    ∧ (∀ (fuel : Nat) (t : List Char) (b e : Nat) (opts : options_t)
        (xs : List json_t),
      render_next (fuel + 1) t b e (json_t.array xs) opts
        = render_loop fuel t b e xs opts)
    ∧ render tmpl_items ctx_items default_options = Except.ok "123".data := by
  refine ⟨?_, fun fuel t b e opts xs => render_next_array fuel t b e xs opts, by decide⟩
  intro fuel t b e opts f xs
  induction xs generalizing fuel with
  | nil =>
    intro _ _
    simp [render_loop]
  | cons x rest ih =>
    intro hfuel hpass
    cases fuel with
    | zero => omega
    | succ g =>
      simp only [render_loop]
      rw [hpass x (List.mem_cons_self x rest) g (by simp at hfuel; omega)]
      rw [ih g (by simp at hfuel ⊢; omega)
        (fun j hj => hpass j (List.mem_cons_of_mem x hj))]
      simp

/-- C8 witness: a one-element array frame over the tag-free range `Z`
renders one concatenated copy of the pass output. -/
theorem claim_C8_witness :
    render_loop 2 ['Z'] 0 1 [json_t.null] default_options = Except.ok ['Z'] :=
  claim_C8_array_frames_iterate.1 2 ['Z'] 0 1 default_options (fun _ => ['Z'])
    [json_t.null] (by decide)
    (fun j hj g hg => by
      simp only [List.mem_singleton] at hj
      subst hj
      cases g with
      | zero => omega
      | succ g' =>
        have := render_pass_not_found g' ['Z'] 0 1 json_t.null default_options 1 1 (by decide)
        simpa [listSlice] using this)

/-- Range `a{{{`: the first open-delimiter occurrence is immediately
followed by a further open-brace character. -/
def tmpl_after_triple : List Char := 'a' :: triple_open

/-- C9: with non-default delimiters the scanner always uses the configured
close delimiter; with default delimiters and a located open delimiter, it
uses the triple close literal exactly when the located open delimiter is
immediately followed by a further open-brace character (i.e. the triple
open literal occurs at the located position). -/
theorem claim_C9_triple_close_selection :
    (∀ (t : List Char) (b e : Nat) (opts : options_t),
      (opts.delim_open ≠ default_open ∨ opts.delim_close ≠ default_close) →
      effective_close t b e opts = opts.delim_close)
    ∧ (∀ (t : List Char) (b e : Nat), b ≤ e → e ≤ t.length →
        b + strSearch (listSlice t b e) default_open ≠ e →
        (effective_close t b e default_options = triple_close ↔
          triple_open.isPrefixOf
            ((listSlice t b e).drop (strSearch (listSlice t b e) default_open)) = true)) := by
  constructor
  · intro t b e opts h
    rcases h with h | h <;> simp [effective_close, h]
  · intro t b e hbe hle htb
    have hlen : (listSlice t b e).length = e - b := listSlice_length t b e hle
    have hs2le := strSearch_le_length (listSlice t b e) default_open
    have hs2 : strSearch (listSlice t b e) default_open < (listSlice t b e).length := by
      omega
    constructor
    · intro h
      unfold effective_close at h
      rw [if_pos ⟨rfl, rfl⟩] at h
      by_cases heq : b + strSearch (listSlice t b e) default_options.delim_open
          = b + strSearch (listSlice t b e) triple_open
      · have hs3 : strSearch (listSlice t b e) triple_open
            = strSearch (listSlice t b e) default_open := by
          have hdo : default_options.delim_open = default_open := rfl
          rw [hdo] at heq
          omega
        have := strSearch_prefix_of_lt (listSlice t b e) triple_open (by omega)
        rwa [hs3] at this
      · rw [if_neg heq] at h
        exact absurd h (by decide)
    · intro hpre
      unfold effective_close
      rw [if_pos ⟨rfl, rfl⟩]
      have h4 : strSearch (listSlice t b e) triple_open
          ≤ strSearch (listSlice t b e) default_open :=
        strSearch_le_of_prefix (listSlice t b e) triple_open _ hpre
      have h5 : ¬ strSearch (listSlice t b e) triple_open
          < strSearch (listSlice t b e) default_open := by
        intro hlt
        have hp3 := strSearch_prefix_of_lt (listSlice t b e) triple_open (by omega)
        have hp2 : default_open.isPrefixOf
            ((listSlice t b e).drop (strSearch (listSlice t b e) triple_open)) = true :=
          isPrefixOf_trans (by decide) hp3
        have hmin := strSearch_min (listSlice t b e) default_open _ hlt
        rw [hmin] at hp2
        exact Bool.noConfusion hp2
      have heq : strSearch (listSlice t b e) triple_open
          = strSearch (listSlice t b e) default_open := by omega
      have hdo : default_options.delim_open = default_open := rfl
      rw [hdo, heq]
      rw [if_pos rfl]

/-- C9 witness: over `a{{{` with default delimiters, the located open
delimiter at index 1 is followed by a third open brace, so the scanner's
close literal becomes the triple form. -/
theorem claim_C9_witness :
    effective_close tmpl_after_triple 0 4 default_options = triple_close :=
  (claim_C9_triple_close_selection.2 tmpl_after_triple 0 4 (by decide) (by decide)
    (by decide)).mpr (by decide)

/-- C10: the comment dispatch appends the character range from the tag's
start to `comment_append_end` — close-delimiter-length characters past the
tag's end — so for `{{!c}}`, whose comment tag ends exactly at the range
end, the computed append bound (8) exceeds both the range end and the
template length (6): the append is not bounded by the range's end
iterator. -/
theorem claim_C10_comment_append_overruns :
    find_next_tag tmpl_comment_end 0 6 default_options = (0, 6, true)
    ∧ get_tag_type tmpl_comment_end 0 6 default_options = tag_type.comment
    ∧ (∀ (tag_end : Nat) (opts : options_t),
        comment_append_end tag_end opts = tag_end + opts.delim_close.length)
    ∧ (∀ e : Nat, e < comment_append_end e default_options)
    ∧ tmpl_comment_end.length < comment_append_end 6 default_options
    ∧ render_pass 2 tmpl_comment_end 0 6 (json_t.object []) default_options
        = Except.ok (listSlice tmpl_comment_end 0 (comment_append_end 6 default_options)) := by
  refine ⟨by decide, by decide, fun tag_end opts => rfl, fun e => ?_, by decide, by decide⟩
  show e < e + (default_options.delim_close).length
  simp [default_options, default_close]
